import Mathlib

/-!
Verification development for a small image-captioning fine-tuning repository
(`src/config.py`, `src/dataset.py`, `src/train_lora.py`, `src/predict.py`,
`src/evaluate.py`, `src/model_wrapper.py`).

Each Python routine relevant to the claims is shallowly embedded as an
executable Lean definition; Python truthiness on optional string fields is
made explicit, tensors are lists of integers living in an explicit store so
that aliasing versus cloning is observable, and the training loop's step
bookkeeping is an explicit state machine.
-/

namespace Ecom

/-- Python truthiness of an optional string field obtained with `dict.get`:
`None` and the empty string are falsy, every other string is truthy. -/
def truthy : Option String → Bool
  | none => false
  | some s => s ≠ ""

/-! ## dataset.py -/

/-- One parsed JSON record of a training jsonl file: the two fields the
loader looks at, each possibly absent. -/
structure RawRow where
  image_path : Option String
  text : Option String
deriving DecidableEq, Repr

/-- One physical line of the jsonl file: blank (skipped by `load_jsonl`)
or a parsed JSON object. -/
inductive Line where
  | blank : Line
  | record : RawRow → Line
deriving DecidableEq, Repr

/-- Embedding of `load_jsonl` (dataset.py lines 12-21): strips each line, skips empty
lines, parses the rest, returning rows in file order. -/
def load_jsonl (lines : List Line) : List RawRow :=
  lines.filterMap fun l =>
    match l with
    | .blank => none
    | .record r => some r

/-- Embedding of `Sample` (dataset.py): an image path and a caption, both non-empty after
load. -/
structure Sample where
  image_path : String
  text : String
deriving DecidableEq, Repr

/-- The validity test of `ProductCaptionDataset.__init__`: the row is kept
iff both `image_path` and `text` are present and non-empty
(`if not ip or not txt: continue`). -/
def validRow (r : RawRow) : Bool :=
  truthy r.image_path && truthy r.text

/-- The `Sample` built from a kept row (`Sample(image_path=str(ip),
text=str(txt))`); on a kept row both fields are present. -/
def toSample (r : RawRow) : Sample :=
  { image_path := r.image_path.getD "", text := r.text.getD "" }

/-- Embedding of `ProductCaptionDataset.__init__` (dataset.py lines 30-42): load the
jsonl, then keep only rows passing `validRow`, in order. -/
def datasetRows (lines : List Line) : List Sample :=
  (load_jsonl lines).filterMap fun r =>
    if validRow r then some (toSample r) else none

/-- The error raised when the input file does not exist
(`path.open` raises `FileNotFoundError`). -/
inductive LoadError where
  | notFound : LoadError
deriving DecidableEq, Repr

/-- Loading the Sample Store from the file system: `none` models a missing
file (`FileNotFoundError`); an existing file is a list of lines, and
ingestion of its rows never fails. -/
def loadStore : Option (List Line) → Except LoadError (List Sample)
  | none => .error .notFound
  | some lines => .ok (datasetRows lines)

/-- Scenario A input: 3 valid rows, one row missing `text`, one row missing
`image_path`. -/
def scenarioA : List Line :=
  [ .record ⟨some "img1.jpg", some "a red shoe"⟩
  , .record ⟨some "img2.jpg", none⟩
  , .record ⟨some "img3.jpg", some "a blue bag"⟩
  , .record ⟨none, some "a green hat"⟩
  , .record ⟨some "img5.jpg", some "a white cup"⟩ ]

/-! ## predict.py -/

/-- A batch-inference output record (`{**row, "pred_text": ..., "error": ...}`):
the input row's fields plus the prediction and error fields. -/
structure PredRecord where
  image_path : Option String
  text : Option String
  pred_text : Option String
  error : Option String
deriving DecidableEq, Repr

/-- The error record emitted for a row whose image file does not exist
(predict.py line 79). -/
def missingImageRecord (row : RawRow) : PredRecord :=
  { image_path := row.image_path, text := row.text
  , pred_text := none, error := some "image_not_found" }

/-- The record emitted for a successfully captioned row (predict.py line 87). -/
def successRecord (cap : String → String) (row : RawRow) (p : String) : PredRecord :=
  { image_path := row.image_path, text := row.text
  , pred_text := some (cap p), error := none }

/-- The batch jsonl loop of `predict.py main` (lines 72-91).  `fsExists`
models `Path(...).exists()`; `cap` models `captioner.caption`; `limit = 0`
means no limit (`if args.limit and n >= args.limit`).  A row with falsy
`image_path` is skipped; a row whose image file is missing yields an error
record without touching the success counter `n`; a success increments `n`
and stops the loop once `n` reaches a positive limit. -/
def predictBatch (fsExists : String → Bool) (cap : String → String)
    (limit : Nat) : List RawRow → Nat → List PredRecord
  | [], _ => []
  | row :: rest, n =>
    match row.image_path with
    | none => predictBatch fsExists cap limit rest n
    | some p =>
      if p = "" then predictBatch fsExists cap limit rest n
      else if fsExists p then
        successRecord cap row p ::
          (if limit ≠ 0 ∧ n + 1 ≥ limit then []
           else predictBatch fsExists cap limit rest (n + 1))
      else
        missingImageRecord row :: predictBatch fsExists cap limit rest n

/-- The claim C7 invariant on one emitted record: exactly one of
`pred_text` and `error` is non-null. -/
def exactlyOnePopulated (r : PredRecord) : Prop :=
  (r.pred_text.isSome ∧ r.error = none) ∨
  (r.pred_text = none ∧ r.error.isSome)

/-- Count of successfully captioned records in an output list (`n` is
incremented exactly on records emitted with `error = None`). -/
def countSuccess (recs : List PredRecord) : Nat :=
  recs.countP fun r => r.error = none

/-! ## evaluate.py -/

/-- The validity test applied per row of the predictions file by
`evaluate.py main` (lines 73-85): the `error` field is null and both the
reference `text` and the `pred_text` are truthy. -/
def validPair (r : PredRecord) : Bool :=
  decide (r.error = none) && truthy r.text && truthy r.pred_text

/-- The row loop of `evaluate.py main` (lines 73-85): skip rows with a
non-null `error`, skip rows whose `text` or `pred_text` is falsy, and
collect the remaining `(refs, preds)` string lists in order. -/
def evalCollect : List PredRecord → List String × List String
  | [] => ([], [])
  | row :: rest =>
    if row.error ≠ none then evalCollect rest
    else if truthy row.text = false || truthy row.pred_text = false then
      evalCollect rest
    else
      (row.text.getD "" :: (evalCollect rest).1,
       row.pred_text.getD "" :: (evalCollect rest).2)

/-- A metrics report (`compute_metrics`, evaluate.py lines 29-36): the
corpus-level scores are produced by external scoring libraries, abstracted
as `scores`; the `"n"` field is `len(preds)`. -/
structure Metrics (S : Type) where
  scores : S
  n : Nat
deriving Repr

/-- Embedding of `compute_metrics` (evaluate.py lines 21-36) with the external BLEU/ROUGE
computation abstracted into `scorer`; the `"n"` field is the length of the
filtered predictions list. -/
def compute_metrics {S : Type} (scorer : List String → List String → S)
    (preds refs : List String) : Metrics S :=
  { scores := scorer preds refs, n := preds.length }

/-- Embedding of `evaluate.py main` on an existing predictions file: filter the rows,
then compute the metrics report. -/
def evalMain {S : Type} (scorer : List String → List String → S)
    (rows : List PredRecord) : Metrics S :=
  compute_metrics scorer (evalCollect rows).2 (evalCollect rows).1

/-- Scenario C input: a predictions file with one error row, one row whose
prediction is null, and two valid rows — 4 raw rows, 2 valid pairs. -/
def scenarioC : List PredRecord :=
  [ { image_path := some "a.jpg", text := some "ref a"
    , pred_text := none, error := some "image_not_found" }
  , { image_path := some "b.jpg", text := some "ref b"
    , pred_text := none, error := none }
  , { image_path := some "c.jpg", text := some "ref c"
    , pred_text := some "pred c", error := none }
  , { image_path := some "d.jpg", text := some "ref d"
    , pred_text := some "pred d", error := none } ]

/-! ## config.py -/

/-- The device kinds `pick_device` can return. -/
inductive Device where
  | cuda : Device
  | mps : Device
  | cpu : Device
deriving DecidableEq, Repr

/-- The numeric precisions `pick_device` can return. -/
inductive Dtype where
  | float16 : Dtype
  | float32 : Dtype
deriving DecidableEq, Repr

/-- Embedding of `pick_device` (config.py lines 5-10): prefer CUDA with float16, then
MPS with float16, else CPU with float32.  The two booleans model
`torch.cuda.is_available()` and `torch.backends.mps.is_available()`. -/
def pick_device (cudaAvail mpsAvail : Bool) : Device × Dtype :=
  if cudaAvail then (.cuda, .float16)
  else if mpsAvail then (.mps, .float16)
  else (.cpu, .float32)

/-- The startup of `train_lora.py main` (lines 53-55): query the device
probe once, then raise before any training work unless the device is CUDA;
`work` stands for the rest of the run. -/
def trainStartup {α : Type} (cudaAvail mpsAvail : Bool) (work : α) :
    Except String α :=
  let d := (pick_device cudaAvail mpsAvail).1
  if d ≠ Device.cuda then
    .error "Training should be run on CUDA (your RTX 3070 Ti)."
  else
    .ok work

/-! ## train_lora.py: BlipCollator -/

/-- A tensor's contents, abstracted as a list of integers. -/
abbrev Tensor : Type := List Int

/-- A tensor store: each allocated tensor lives at an index, so that
aliasing (two keys holding the same index) is distinguishable from cloning
(two indices with equal contents). -/
abbrev Store : Type := List Tensor

/-- Allocate a fresh tensor in the store, returning the new store and the
reference to the new tensor. -/
def allocT (st : Store) (t : Tensor) : Store × Nat :=
  (st ++ [t], st.length)

/-- Read the tensor at a reference. -/
def readT (st : Store) (r : Nat) : Tensor :=
  st.getD r []

/-- Modify the tensor at a reference in place. -/
def writeT (st : Store) (r : Nat) (t : Tensor) : Store :=
  st.set r t

/-- Embedding of the pytorch `Tensor.clone` operation: allocate fresh storage holding a copy of the
referenced tensor's contents. -/
def cloneT (st : Store) (r : Nat) : Store × Nat :=
  allocT st (readT st r)

/-- The batch produced by `BlipCollator.__call__`: references into the
store for the `input_ids` tensor and the `labels` tensor (the image
tensors and attention mask are not involved in the claims). -/
structure Batch where
  store : Store
  input_ids : Nat
  labels : Nat

/-- Embedding of `BlipCollator.__call__` (train_lora.py lines 18-23): the processor
encodes the batch's texts into an `input_ids` tensor `t` (placed in a fresh
store), then `inputs["labels"] = inputs["input_ids"].clone()`. -/
def blipCollate (t : Tensor) : Batch :=
  let (st1, rIn) := allocT [] t
  let (st2, rLab) := cloneT st1 rIn
  { store := st2, input_ids := rIn, labels := rLab }

/-! ## train_lora.py: training loop bookkeeping -/

/-- The per-micro-batch bookkeeping of the training loop: the micro-batch
counter `step`, the number of optimizer steps applied, and the
learning-rate schedule position. -/
structure TrainState where
  step : Nat
  optSteps : Nat
  schedPos : Nat
deriving DecidableEq, Repr

/-- One micro-batch of the loop body (train_lora.py lines 104-118): on the
accumulation boundary `(step + 1) % grad_accum == 0` apply the optimizer
step (`scaler.step`) and advance the schedule (`sched.step`); in all cases
increment `step` afterwards. -/
def microBatch (gradAccum : Nat) (s : TrainState) : TrainState :=
  if (s.step + 1) % gradAccum = 0 then
    { step := s.step + 1, optSteps := s.optSteps + 1, schedPos := s.schedPos + 1 }
  else
    { step := s.step + 1, optSteps := s.optSteps, schedPos := s.schedPos }

/-- Iteration of `n` consecutive micro-batches. -/
def microBatches (gradAccum n : Nat) (s : TrainState) : TrainState :=
  match n with
  | 0 => s
  | n + 1 => microBatches gradAccum n (microBatch gradAccum s)

/-- Embedding of `steps_per_epoch` (train_lora.py line 87):
`max(1, len(train_loader) // grad_accum)`. -/
def steps_per_epoch (loaderLen gradAccum : Nat) : Nat :=
  max 1 (loaderLen / gradAccum)

/-- Embedding of `total_steps` (train_lora.py line 88):
`min(args.max_train_steps, steps_per_epoch * args.epochs)`. -/
def total_steps (maxTrainSteps loaderLen gradAccum epochs : Nat) : Nat :=
  min maxTrainSteps (steps_per_epoch loaderLen gradAccum * epochs)

/-- The inner loop of one epoch (train_lora.py lines 103-123): process each
of the loader's batches in turn, incrementing `step`, and break as soon as
`step >= total_steps`.  Returns the step counter after the epoch. -/
def epochRun (totalSteps : Nat) : Nat → Nat → Nat
  | 0, s => s
  | nBatches + 1, s =>
    if s + 1 ≥ totalSteps then s + 1
    else epochRun totalSteps nBatches (s + 1)

/-- The epoch loop (train_lora.py lines 102-125): run each epoch's inner
loop, breaking out as soon as `step >= total_steps`.  Returns the final
step counter, i.e. the number of micro-batches processed. -/
def trainLoop (totalSteps nBatches : Nat) : Nat → Nat → Nat
  | 0, s => s
  | epochs + 1, s =>
    let s1 := epochRun totalSteps nBatches s
    if s1 ≥ totalSteps then s1
    else trainLoop totalSteps nBatches epochs s1


/-! ## Helper lemmas -/

theorem datasetRows_eq_filter_map (lines : List Line) :
    datasetRows lines = ((load_jsonl lines).filter validRow).map toSample := by
  unfold datasetRows
  induction load_jsonl lines with
  | nil => rfl
  | cons r rest ih =>
    by_cases h : validRow r
    · simp [List.filterMap_cons, List.filter_cons, h, ih]
    · simp [List.filterMap_cons, List.filter_cons, h, ih]

theorem predictBatch_record_invariant (fsExists : String → Bool)
    (cap : String → String) (limit : Nat) :
    ∀ rows n r, r ∈ predictBatch fsExists cap limit rows n →
      exactlyOnePopulated r := by
  intro rows
  induction rows with
  | nil => intro n r h; simp [predictBatch] at h
  | cons row rest ih =>
    intro n r h
    unfold predictBatch at h
    rcases hip : row.image_path with _ | p
    · rw [hip] at h
      exact ih n r h
    · rw [hip] at h
      by_cases hp : p = ""
      · simp only [hp, if_pos rfl] at h
        exact ih n r h
      · simp only [if_neg hp] at h
        by_cases hfs : fsExists p
        · simp only [hfs, if_pos rfl] at h
          rcases List.mem_cons.mp h with hr | hr
          · exact hr ▸ Or.inl ⟨rfl, rfl⟩
          · by_cases hstop : limit ≠ 0 ∧ n + 1 ≥ limit
            · simp only [if_pos hstop] at hr
              simp at hr
            · simp only [if_neg hstop] at hr
              exact ih (n + 1) r hr
        · simp only [if_neg hfs] at h
          rcases List.mem_cons.mp h with hr | hr
          · exact hr ▸ Or.inr ⟨rfl, rfl⟩
          · exact ih n r hr

theorem predictBatch_countSuccess_le (fsExists : String → Bool)
    (cap : String → String) (limit : Nat) :
    ∀ rows n, n < limit →
      countSuccess (predictBatch fsExists cap limit rows n) ≤ limit - n := by
  intro rows
  induction rows with
  | nil => intro n _; simp [predictBatch, countSuccess]
  | cons row rest ih =>
    intro n hn
    unfold predictBatch
    rcases row.image_path with _ | p
    · exact ih n hn
    · by_cases hp : p = ""
      · simp only [if_pos hp]
        exact ih n hn
      · simp only [if_neg hp]
        by_cases hfs : fsExists p
        · simp only [if_pos hfs]
          by_cases hstop : limit ≠ 0 ∧ n + 1 ≥ limit
          · simp only [if_pos hstop]
            simp [countSuccess, List.countP_cons, successRecord]
            omega
          · simp only [if_neg hstop]
            have hn1 : n + 1 < limit := by omega
            have hrec := ih (n + 1) hn1
            simp only [countSuccess] at hrec ⊢
            simp [List.countP_cons, successRecord]
            omega
        · simp only [if_neg hfs]
          have hrec := ih n hn
          simp only [countSuccess, List.countP_cons, missingImageRecord] at hrec ⊢
          simp only [decide_eq_true_eq] at hrec ⊢
          simp only [reduceCtorEq, if_false]
          omega

theorem evalCollect_preds_length (rows : List PredRecord) :
    (evalCollect rows).2.length = (rows.filter validPair).length := by
  induction rows with
  | nil => rfl
  | cons row rest ih =>
    by_cases he : row.error = none
    · by_cases h1 : truthy row.text
      · by_cases h2 : truthy row.pred_text
        · simp [evalCollect, validPair, List.filter_cons, he, h1, h2, ih]
        · simp only [Bool.not_eq_true] at h2
          simp [evalCollect, validPair, List.filter_cons, he, h1, h2, ih]
      · simp only [Bool.not_eq_true] at h1
        simp [evalCollect, validPair, List.filter_cons, he, h1, ih]
    · simp [evalCollect, validPair, List.filter_cons, he, ih]

theorem microBatches_counts (K : Nat) :
    ∀ (n : Nat) (s : TrainState),
      (microBatches K n s).step = s.step + n ∧
      (microBatches K n s).optSteps =
        s.optSteps + ((s.step + n) / K - s.step / K) ∧
      (microBatches K n s).schedPos =
        s.schedPos + ((s.step + n) / K - s.step / K) := by
  intro n
  induction n with
  | zero => intro s; simp [microBatches]
  | succ n ih =>
    intro s
    have h1 := ih (microBatch K s)
    have hdiv : (s.step + 1) / K = s.step / K + if K ∣ s.step + 1 then 1 else 0 :=
      Nat.succ_div _ _
    have hmono : (s.step + 1) / K ≤ (s.step + 1 + n) / K :=
      Nat.div_le_div_right (by omega)
    have hsucc : s.step + (n + 1) = s.step + 1 + n := by omega
    by_cases hb : (s.step + 1) % K = 0
    · have hdvd : K ∣ s.step + 1 := Nat.dvd_of_mod_eq_zero hb
      rw [if_pos hdvd] at hdiv
      simp only [microBatches, microBatch, if_pos hb] at h1 ⊢
      rw [hsucc]
      omega
    · have hdvd : ¬ K ∣ s.step + 1 := fun hd => hb (Nat.mod_eq_zero_of_dvd hd)
      rw [if_neg hdvd] at hdiv
      simp only [microBatches, microBatch, if_neg hb] at h1 ⊢
      rw [hsucc]
      omega

theorem epochRun_eq (T : Nat) :
    ∀ (nBatches s : Nat), s < T → epochRun T nBatches s = min T (s + nBatches) := by
  intro nBatches
  induction nBatches with
  | zero => intro s hs; simp [epochRun]; omega
  | succ n ih =>
    intro s hs
    unfold epochRun
    by_cases h : s + 1 ≥ T
    · rw [if_pos h]; omega
    · rw [if_neg h]
      have hrec := ih (s + 1) (by omega)
      omega

theorem trainLoop_eq (T nB : Nat) :
    ∀ (epochs s : Nat), s < T →
      trainLoop T nB epochs s = min T (s + nB * epochs) := by
  intro epochs
  induction epochs with
  | zero => intro s hs; simp [trainLoop]; omega
  | succ e ih =>
    intro s hs
    simp only [trainLoop]
    have h1 : epochRun T nB s = min T (s + nB) := epochRun_eq T nB s hs
    rw [Nat.mul_succ]
    by_cases h : epochRun T nB s ≥ T
    · rw [if_pos h]
      omega
    · rw [if_neg h]
      have hlt : epochRun T nB s < T := by omega
      have hrec := ih (epochRun T nB s) hlt
      omega

/-! ## Claims -/

/-- C1: with `grad_accum_steps = K`, in every window of `K` consecutive
micro-batches exactly one optimizer step is applied and the learning-rate
schedule advances exactly once; both advance precisely on the accumulation
boundary `(step + 1) % K == 0` and never on a non-boundary micro-batch;
the micro-batch counter `step` is incremented unconditionally on every
micro-batch. -/
theorem claim_C1 (K : Nat) (hK : 0 < K) :
    (∀ s : TrainState,
      (microBatches K K s).optSteps = s.optSteps + 1 ∧
      (microBatches K K s).schedPos = s.schedPos + 1) ∧
    (∀ s : TrainState, (microBatch K s).step = s.step + 1) ∧
    (∀ s : TrainState, (s.step + 1) % K = 0 →
      (microBatch K s).optSteps = s.optSteps + 1 ∧
      (microBatch K s).schedPos = s.schedPos + 1) ∧
    (∀ s : TrainState, (s.step + 1) % K ≠ 0 →
      (microBatch K s).optSteps = s.optSteps ∧
      (microBatch K s).schedPos = s.schedPos) := by
  refine ⟨fun s => ?_, fun s => ?_, fun s hb => ?_, fun s hb => ?_⟩
  · have h := microBatches_counts K K s
    have hdr : (s.step + K) / K = s.step / K + 1 := Nat.add_div_right _ hK
    omega
  · unfold microBatch
    split <;> rfl
  · simp [microBatch, hb]
  · simp [microBatch, hb]

theorem claim_C1_witness :
    (microBatches 4 4 ⟨0, 0, 0⟩).optSteps = 0 + 1 ∧
    (microBatch 4 ⟨0, 0, 0⟩).step = 0 + 1 ∧
    (microBatch 4 ⟨3, 7, 7⟩).optSteps = 7 + 1 ∧
    (microBatch 4 ⟨0, 7, 7⟩).schedPos = 7 := by
  have h := claim_C1 4 (by decide)
  exact ⟨(h.1 ⟨0, 0, 0⟩).1, h.2.1 ⟨0, 0, 0⟩,
    (h.2.2.1 ⟨3, 7, 7⟩ (by decide)).1, (h.2.2.2 ⟨0, 7, 7⟩ (by decide)).2⟩

/-- C2: `total_steps` is computed once at startup as
`min(max_train_steps, steps_per_epoch * epochs)`, and for any run with a
positive step budget the loop processes exactly
`min(total_steps, loaderLen * epochs)` micro-batches: the step counter
stops the instant it reaches `total_steps`, mid-epoch if necessary, before
the next micro-batch, regardless of remaining data. -/
theorem claim_C2 (maxTrainSteps loaderLen gradAccum epochs : Nat) :
    total_steps maxTrainSteps loaderLen gradAccum epochs =
      min maxTrainSteps (max 1 (loaderLen / gradAccum) * epochs) ∧
    (1 ≤ total_steps maxTrainSteps loaderLen gradAccum epochs →
      trainLoop (total_steps maxTrainSteps loaderLen gradAccum epochs)
          loaderLen epochs 0 =
        min (total_steps maxTrainSteps loaderLen gradAccum epochs)
          (loaderLen * epochs)) := by
  refine ⟨rfl, fun h => ?_⟩
  have hrec := trainLoop_eq
    (total_steps maxTrainSteps loaderLen gradAccum epochs) loaderLen epochs 0
    (by omega)
  simpa using hrec

theorem claim_C2_witness :
    1 ≤ total_steps 5 3 1 2 ∧
    trainLoop (total_steps 5 3 1 2) 3 2 0 = min (total_steps 5 3 1 2) (3 * 2) :=
  ⟨by decide, (claim_C2 5 3 1 2).2 (by decide)⟩

/-- C3: the collator sets `labels` to a copy of `input_ids` with identical
content but decoupled storage: the two references differ, their contents
agree, and an in-place write through either reference leaves the tensor
read through the other unchanged. -/
theorem claim_C3 (t : Tensor) :
    readT (blipCollate t).store (blipCollate t).labels =
      readT (blipCollate t).store (blipCollate t).input_ids ∧
    (blipCollate t).labels ≠ (blipCollate t).input_ids ∧
    (∀ u : Tensor,
      readT (writeT (blipCollate t).store (blipCollate t).labels u)
          (blipCollate t).input_ids =
        readT (blipCollate t).store (blipCollate t).input_ids) ∧
    (∀ u : Tensor,
      readT (writeT (blipCollate t).store (blipCollate t).input_ids u)
          (blipCollate t).labels =
        readT (blipCollate t).store (blipCollate t).labels) :=
  ⟨rfl, Nat.one_ne_zero, fun _ => rfl, fun _ => rfl⟩

/-- C4: the loaded collection is exactly the in-order image of the rows
with non-empty `image_path` and non-empty `text`; lines missing or
emptying either field produce no Sample; Scenario A (3 valid rows plus one
row missing `text` and one missing `image_path`) yields length 3. -/
theorem claim_C4 :
    (∀ lines : List Line,
      datasetRows lines = ((load_jsonl lines).filter validRow).map toSample) ∧
    (datasetRows scenarioA).length = 3 :=
  ⟨datasetRows_eq_filter_map, rfl⟩

/-- C5: for an existing input file, ingestion never raises whatever the
individual rows contain — malformed rows are only dropped and the result
is `ok` with exactly the valid rows; a missing file fails with the
NotFound error. -/
theorem claim_C5 :
    (∀ lines : List Line, ∃ samples : List Sample,
      loadStore (some lines) = .ok samples ∧
      samples = ((load_jsonl lines).filter validRow).map toSample) ∧
    loadStore none = .error .notFound :=
  ⟨fun lines => ⟨datasetRows lines, rfl, datasetRows_eq_filter_map lines⟩, rfl⟩

/-- C6: when the probe reports no accelerator (CPU fallback), starting
training is a fatal error raised before any training work; the probe
returns CUDA first, then MPS, then CPU, with reduced precision (float16)
exactly when an accelerator is present. -/
theorem claim_C6 :
    (∀ (α : Type) (work : α) (c m : Bool),
      (pick_device c m).1 = Device.cpu →
      trainStartup c m work =
        .error "Training should be run on CUDA (your RTX 3070 Ti).") ∧
    (∀ c m : Bool, ((pick_device c m).1 = Device.cuda ↔ c = true)) ∧
    (∀ c m : Bool, ((pick_device c m).1 = Device.mps ↔ (c = false ∧ m = true))) ∧
    (∀ c m : Bool, ((pick_device c m).1 = Device.cpu ↔ (c = false ∧ m = false))) ∧
    (∀ c m : Bool, ((pick_device c m).2 = Dtype.float16 ↔ (c = true ∨ m = true))) := by
  refine ⟨fun α work c m hc => ?_, by decide, by decide, by decide, by decide⟩
  cases c <;> cases m <;> simp_all [pick_device, trainStartup]

theorem claim_C6_witness :
    trainStartup false false (0 : Nat) =
      .error "Training should be run on CUDA (your RTX 3070 Ti)." :=
  claim_C6.1 Nat 0 false false rfl

/-- C7: every record emitted by batch inference has exactly one of
`pred_text`/`error` non-null; a row whose image file is missing is emitted
as an error record with `error = "image_not_found"` and `pred_text = null`,
and the loop continues with the remaining rows instead of aborting. -/
theorem claim_C7 (fsExists : String → Bool) (cap : String → String) (limit : Nat) :
    (∀ rows n r, r ∈ predictBatch fsExists cap limit rows n →
      exactlyOnePopulated r) ∧
    (∀ (row : RawRow) (rest : List RawRow) (n : Nat) (p : String),
      row.image_path = some p → p ≠ "" → fsExists p = false →
      predictBatch fsExists cap limit (row :: rest) n =
        missingImageRecord row :: predictBatch fsExists cap limit rest n) := by
  refine ⟨predictBatch_record_invariant fsExists cap limit, ?_⟩
  intro row rest n p hip hp hfs
  simp [predictBatch, hip, hp, hfs]

theorem claim_C7_witness :
    predictBatch (fun _ => false) (fun _ => "x") 0
        [⟨some "a.jpg", some "cap a"⟩] 0 =
      [missingImageRecord ⟨some "a.jpg", some "cap a"⟩] ∧
    exactlyOnePopulated (missingImageRecord ⟨some "a.jpg", some "cap a"⟩) := by
  have h := claim_C7 (fun _ => false) (fun _ => "x") 0
  constructor
  · have h2 := h.2 ⟨some "a.jpg", some "cap a"⟩ [] 0 "a.jpg" rfl (by decide) rfl
    simp only [predictBatch] at h2
    exact h2
  · exact h.1 [⟨some "a.jpg", some "cap a"⟩] 0 _ (by decide)

/-- C8: the metrics report's `n` field equals the number of valid
(reference, prediction) pairs remaining after the filtering pass, not the
raw number of rows: in general `n` is the length of the filtered row list,
and on a concrete 4-row predictions file with one error row and one
null-prediction row the report has `n = 2` while the file has 4 rows. -/
theorem claim_C8 :
    (∀ (S : Type) (scorer : List String → List String → S)
        (rows : List PredRecord),
      (evalMain scorer rows).n = (rows.filter validPair).length) ∧
    ((evalMain (fun _ _ => ()) scenarioC).n = 2 ∧ scenarioC.length = 4) := by
  refine ⟨fun S scorer rows => evalCollect_preds_length rows, by decide, rfl⟩

/-- C9: with a positive limit `L`, only successfully captioned records
count toward the limit — at most `L` success records are ever emitted —
while error records do not consume it, so an input exists (one missing
image before one good image, `L = 1`) whose output has more than `L`
records. -/
theorem claim_C9 :
    (∀ (fsExists : String → Bool) (cap : String → String) (L : Nat)
        (rows : List RawRow), 0 < L →
      countSuccess (predictBatch fsExists cap L rows 0) ≤ L) ∧
    1 < (predictBatch (fun p => p = "good.jpg") (fun _ => "a caption") 1
        [⟨some "bad.jpg", none⟩, ⟨some "good.jpg", none⟩] 0).length := by
  constructor
  · intro fs cap L rows hL
    have hle := predictBatch_countSuccess_le fs cap L rows 0 hL
    omega
  · decide

theorem claim_C9_witness :
    0 < 1 ∧
    countSuccess (predictBatch (fun p => p = "good.jpg") (fun _ => "a caption") 1
        [⟨some "bad.jpg", none⟩, ⟨some "good.jpg", none⟩] 0) ≤ 1 :=
  ⟨by decide, claim_C9.1 (fun p => p = "good.jpg") (fun _ => "a caption") 1
      [⟨some "bad.jpg", none⟩, ⟨some "good.jpg", none⟩] (by decide)⟩

/-- C10: a row whose `image_path` field is missing or empty is silently
omitted from the output — processing it emits nothing, error record
included — so an input exists whose output has fewer records than the
input has rows. -/
theorem claim_C10 :
    (∀ (fsExists : String → Bool) (cap : String → String) (limit : Nat)
        (row : RawRow) (rest : List RawRow) (n : Nat),
      truthy row.image_path = false →
      predictBatch fsExists cap limit (row :: rest) n =
        predictBatch fsExists cap limit rest n) ∧
    (predictBatch (fun _ => true) (fun _ => "x") 0
        [⟨none, some "t"⟩] 0).length <
      ([⟨none, some "t"⟩] : List RawRow).length := by
  constructor
  · intro fs cap limit row rest n hfalsy
    rcases hip : row.image_path with _ | p
    · simp [predictBatch, hip]
    · rw [hip] at hfalsy
      simp [truthy] at hfalsy
      simp [predictBatch, hip, hfalsy]
  · decide

theorem claim_C10_witness :
    truthy (RawRow.mk none (some "t")).image_path = false ∧
    predictBatch (fun _ => true) (fun _ => "x") 0 [⟨none, some "t"⟩] 0 =
      predictBatch (fun _ => true) (fun _ => "x") 0 [] 0 :=
  ⟨by decide, claim_C10.1 (fun _ => true) (fun _ => "x") 0 ⟨none, some "t"⟩ [] 0
      (by decide)⟩

end Ecom
